import Mathlib

/-!
Verification of the sticky-notes board core (ui.js) against its
natural-language specification.  The Note entity and NoteManager live in
notes.js / storage.js, which are not part of the sources at hand; where a
claim needs their behaviour, the corresponding definition is modelled from
the specification and marked as such.  Everything else is a direct shallow
embedding of src/CP1295-Project/js/ui.js.  Coordinates are embedded as
integers: the handlers only use addition, subtraction, `min` and `max`,
for which the embedding is faithful.
-/

namespace StickyNotes

/-- Modelled from the spec: a Note's data (notes.js is not among the
sources).  Identity is an immutable identifier, content is mutable text,
(x, y) is the mutable board-relative position, and the creation timestamp
is the default sort key. -/
structure Note where
  id : String
  content : String
  x : Int
  y : Int
  timestamp : Int
deriving DecidableEq

/-- Modelled from the spec: `updatePosition` "replaces position verbatim;
this operation does NOT itself clamp". -/
def Note.updatePosition (n : Note) (newX newY : Int) : Note :=
  { n with x := newX, y := newY }

/-- Modelled from the spec: `updateContent` replaces content and always
succeeds. -/
def Note.updateContent (n : Note) (text : String) : Note :=
  { n with content := text }

/-- Modelled from the spec: the persisted record shape
`{id, content, x, y, timestamp}`. -/
structure SerializedNote where
  id : String
  content : String
  x : Int
  y : Int
  timestamp : Int
deriving DecidableEq

/-- Modelled from the spec: `serialize` is a pure, side-effect-free
snapshot of the note's fields. -/
def Note.serialize (n : Note) : SerializedNote :=
  { id := n.id, content := n.content, x := n.x, y := n.y,
    timestamp := n.timestamp }

/-- Modelled from the spec: `createNote` assigns an identifier and a
timestamp (both produced by the environment, passed here explicitly) and
takes content and position verbatim. -/
def createNote (id : String) (timestamp : Int) (content : String)
    (x y : Int) : Note :=
  { id := id, content := content, x := x, y := y, timestamp := timestamp }

/-- Modelled from the spec: the NoteManager owns an ordered collection of
notes. -/
structure NoteManager where
  notes : List Note
deriving DecidableEq

/-- Modelled from the spec: `addNote` fails with `DuplicateIdentifier` on
a colliding id, otherwise appends preserving insertion order. -/
def NoteManager.addNote (m : NoteManager) (n : Note) :
    Except String NoteManager :=
  if m.notes.any (fun o => o.id == n.id) then
    .error "DuplicateIdentifier"
  else
    .ok { notes := m.notes ++ [n] }

/-- Modelled from the spec: `removeNote` removes the note with that id and
is an idempotent no-op when the id is absent. -/
def NoteManager.removeNote (m : NoteManager) (id : String) : NoteManager :=
  { notes := m.notes.filter (fun n => n.id != id) }

/-- Modelled from the spec: `getAllNotes` returns the manager's current
order. -/
def NoteManager.getAllNotes (m : NoteManager) : List Note :=
  m.notes

/-- Modelled from the spec: `toJSON` delegates to each note's
`serialize`, in collection order. -/
def NoteManager.toJSON (m : NoteManager) : List SerializedNote :=
  m.notes.map Note.serialize

/-- Modelled from the spec: stable insertion of a note into an
ascending-by-timestamp list (an equal-timestamp note already in the list
stays in front). -/
def insertAscByTs (n : Note) : List Note → List Note
  | [] => [n]
  | o :: rest =>
    if o.timestamp ≤ n.timestamp then o :: insertAscByTs n rest
    else n :: o :: rest

/-- Modelled from the spec: `sortByAscending` reorders the collection by
creation timestamp, stable on ties. -/
def NoteManager.sortByAscending (m : NoteManager) : NoteManager :=
  { notes := m.notes.foldl (fun acc n => insertAscByTs n acc) [] }

/-- Modelled from the spec: stable insertion for the descending order. -/
def insertDescByTs (n : Note) : List Note → List Note
  | [] => [n]
  | o :: rest =>
    if n.timestamp ≤ o.timestamp then o :: insertDescByTs n rest
    else n :: o :: rest

/-- Modelled from the spec: `sortByDescending` reorders the collection by
creation timestamp descending, stable on ties. -/
def NoteManager.sortByDescending (m : NoteManager) : NoteManager :=
  { notes := m.notes.foldl (fun acc n => insertDescByTs n acc) [] }

/-!
From here on the definitions embed src/CP1295-Project/js/ui.js directly.
-/

/-- ui.js lines 163-168 (mousemove handler): the candidate position is
the pointer position relative to the board minus the recorded drag
offset, then clamped with `Math.max(0, Math.min(v, bound - size))` in
each coordinate. -/
def dragClamp (x y noteW noteH boardW boardH : Int) : Int × Int :=
  (max 0 (min x (boardW - noteW)), max 0 (min y (boardH - noteH)))

/-- ui.js lines 52-68 (`createNewNote`): the click point is translated to
board-relative coordinates with no clamping, an empty-content note is
created there, and the note is added to the manager. -/
def createNewNote (clientX clientY boardLeft boardTop : Int)
    (id : String) (timestamp : Int) (m : NoteManager) :
    Note × Except String NoteManager :=
  let boardX := clientX - boardLeft
  let boardY := clientY - boardTop
  let note := createNote id timestamp "" boardX boardY
  (note, m.addNote note)

/-- ui.js lines 256-261 / 274-279: the cascade loop.  `x` is fixed at
550; `y` starts at the accumulator and is incremented by 50 before each
`updatePosition` call. -/
def cascadeGo : List Note → Int → List Note
  | [], _ => []
  | n :: rest, y => n.updatePosition 550 (y + 50) :: cascadeGo rest (y + 50)

/-- ui.js: the cascade layout applied to a whole (sorted) collection,
starting from `y = 0`. -/
def cascade (notes : List Note) : List Note :=
  cascadeGo notes 0

/-- ui.js lines 251-262 (`sortByAsc`): sort ascending, then apply the
cascade layout to every note in sorted order.  (`renderAllNotes` is pure
DOM work and mutates no note.) -/
def sortByAsc (m : NoteManager) : NoteManager :=
  { notes := cascade m.sortByAscending.notes }

/-- ui.js lines 269-280 (`sortByDesc`): sort descending, then apply the
same cascade layout. -/
def sortByDesc (m : NoteManager) : NoteManager :=
  { notes := cascade m.sortByDescending.notes }

/-!
The per-note interaction state machine of `setupNoteEventListeners`
(ui.js lines 92-181).  The closure variables `isDragging`, `dragOffsetX`
and `dragOffsetY` become the fields of `ListenerState`; each DOM event
handler becomes a function on that state.  The DOM geometry queried at
the instant of each event (board rectangle, note rectangle, rendered note
size) is passed in explicitly, since the handlers re-query it on every
event rather than caching it.
-/

/-- The possible targets of a mousedown on the note element: its delete
button, its quote button, its editable content element, or any other part
of the note. -/
inductive ClickTarget
  | deleteBtn
  | quoteBtn
  | contentEl
  | noteBody
deriving DecidableEq

/-- The closure state of one note's listeners in
`setupNoteEventListeners` (ui.js lines 98-100): the note object, the
`isDragging` flag, and the two drag-offset variables (initialised to 0,
standing for JavaScript's `undefined`; they are only read after a
mousedown has assigned them). -/
structure ListenerState where
  note : Note
  isDragging : Bool
  dragOffsetX : Int
  dragOffsetY : Int
deriving DecidableEq

/-- The geometry an event handler reads from the DOM at the instant of a
mousemove: pointer position, board rectangle origin and size, and the
note element's rendered size. -/
structure MoveEnv where
  clientX : Int
  clientY : Int
  boardLeft : Int
  boardTop : Int
  boardWidth : Int
  boardHeight : Int
  noteWidth : Int
  noteHeight : Int
deriving DecidableEq

/-- ui.js lines 131-152 (mousedown handler): a mousedown on the delete
button, the quote button or the content element returns early; otherwise
`isDragging` is set and the drag offset is recorded as the pointer
position minus the note's top-left corner at this instant. -/
def handleMousedown (s : ListenerState) (target : ClickTarget)
    (clientX clientY noteLeft noteTop : Int) : ListenerState :=
  if target = .deleteBtn ∨ target = .quoteBtn ∨ target = .contentEl then
    s
  else
    { s with isDragging := true,
             dragOffsetX := clientX - noteLeft,
             dragOffsetY := clientY - noteTop }

/-- ui.js lines 155-172 (mousemove handler): when not dragging, return
with no change; when dragging, compute the candidate board-relative
position from the current pointer and the recorded offset, clamp it to
the board, and apply it with `updatePosition`. -/
def handleMousemove (s : ListenerState) (env : MoveEnv) : ListenerState :=
  if s.isDragging = false then
    s
  else
    let newX := env.clientX - env.boardLeft - s.dragOffsetX
    let newY := env.clientY - env.boardTop - s.dragOffsetY
    let p := dragClamp newX newY env.noteWidth env.noteHeight
      env.boardWidth env.boardHeight
    { s with note := s.note.updatePosition p.1 p.2 }

/-- ui.js lines 175-180 (mouseup handler): when dragging, clear
`isDragging` (the class-list change is pure DOM styling). -/
def handleMouseup (s : ListenerState) : ListenerState :=
  if s.isDragging then { s with isDragging := false } else s

/-- A sequence of mousemove events (each with its own instant's
geometry) processed in order by one note's mousemove handler. -/
def processMoves (s : ListenerState) (envs : List MoveEnv) : ListenerState :=
  envs.foldl handleMousemove s

/-- The mousemove geometry seen by the i-th note's listener during one
document-level mousemove: pointer position and board geometry are shared
by all listeners, while each note element reports its own rendered size
(`dims i` for the i-th note). -/
def sharedMoveEnv (clientX clientY boardLeft boardTop boardW boardH : Int)
    (dims : Nat → Int × Int) (i : Nat) : MoveEnv :=
  { clientX := clientX, clientY := clientY, boardLeft := boardLeft,
    boardTop := boardTop, boardWidth := boardW, boardHeight := boardH,
    noteWidth := (dims i).1, noteHeight := (dims i).2 }

/-- Dispatch loop for a document-level mousemove, visiting the listeners
in order starting at index `i`. -/
def docMousemoveGo (clientX clientY boardLeft boardTop boardW boardH : Int)
    (dims : Nat → Int × Int) (i : Nat) :
    List ListenerState → List ListenerState
  | [] => []
  | s :: rest =>
    handleMousemove s
        (sharedMoveEnv clientX clientY boardLeft boardTop boardW boardH
          dims i) ::
      docMousemoveGo clientX clientY boardLeft boardTop boardW boardH
        dims (i + 1) rest

/-- A document-level mousemove dispatched to every note's listener. -/
def docMousemove (clientX clientY boardLeft boardTop boardW boardH : Int)
    (dims : Nat → Int × Int) (states : List ListenerState) :
    List ListenerState :=
  docMousemoveGo clientX clientY boardLeft boardTop boardW boardH dims 0
    states

/-!
The two-phase deletion of `deleteNote` (ui.js lines 189-201) and the
auto-save tick, as an event-driven machine over the application state.
A delete request only adds the fade-out class and registers an
`animationend` listener; the manager is mutated when — and only when —
that listener later fires.
-/

/-- Events relevant to the deletion protocol: a delete request for a
note, the `animationend` completion signal for a note's exit transition,
and an auto-save timer tick (which reads but never mutates the
manager). -/
inductive AppEvent
  | deleteRequest (id : String)
  | animationEnd (id : String)
  | autoSaveTick
deriving DecidableEq

/-- The orchestrator-level state: the manager plus the ids whose exit
transition is currently playing (fade-out class added, `animationend`
listener pending). -/
structure AppState where
  manager : NoteManager
  fading : List String
deriving DecidableEq

/-- One event step.  ui.js lines 189-201: `deleteNote` adds the class
and the listener but leaves the manager untouched; the `animationend`
callback removes the DOM element and calls `removeNote`.  ui.js lines
218-221: the auto-save tick calls `toJSON` and hands the result to the
persistence collaborator, mutating nothing. -/
def appStep (st : AppState) : AppEvent → AppState
  | .deleteRequest id => { st with fading := id :: st.fading }
  | .animationEnd id =>
      { manager := st.manager.removeNote id, fading := st.fading.erase id }
  | .autoSaveTick => st

/-- A trace of events processed in order. -/
def runTrace (st : AppState) (events : List AppEvent) : AppState :=
  events.foldl appStep st

/-!
The quote-button handler (ui.js lines 113-128) and the auto-save loop
(ui.js lines 216-222).
-/

/-- The outcome of the awaited quote fetch, supplied by the external
quote collaborator: a quote string, or a fetch failure. -/
inductive QuoteResult
  | success (q : String)
  | failure
deriving DecidableEq

/-- Modelled from the spec: `Note.addRandomQuote` (notes.js is not among
the sources) appends the fetched quote to the note's content on success;
on failure it leaves the content untouched and the returned flag records
that the promise rejected (the exception the ui.js handler catches). -/
def Note.addRandomQuote (n : Note) (r : QuoteResult) : Note × Bool :=
  match r with
  | .success q => (n.updateContent (n.content ++ q), false)
  | .failure => (n, true)

/-- What the quote-button handler leaves behind: the (possibly updated)
note, whether an exception escaped the handler, the button text right
after the handler finishes, and a scheduled revert (delay in
milliseconds, text to restore) when one was set with `setTimeout`. -/
structure QuoteOutcome where
  note : Note
  threw : Bool
  buttonText : String
  pendingRevert : Option (Nat × String)
deriving DecidableEq

/-- The quote button's normal icon (ui.js line 117). -/
def quoteIcon : String := "💡"

/-- The quote button's transient error indicator (ui.js line 120). -/
def quoteErrorIcon : String := "❌"

/-- ui.js lines 113-128 (quote button handler): show the loading
indicator, await the fetch; on success restore the icon; on a rejection
the `catch` block shows the error indicator, schedules the icon's
restoration 1500 ms later, and logs the error — nothing is rethrown. -/
def quoteButtonHandler (n : Note) (r : QuoteResult) : QuoteOutcome :=
  match Note.addRandomQuote n r with
  | (updated, false) =>
      { note := updated, threw := false, buttonText := quoteIcon,
        pendingRevert := none }
  | (unchanged, true) =>
      { note := unchanged, threw := false, buttonText := quoteErrorIcon,
        pendingRevert := some (1500, quoteIcon) }

/-- ui.js line 221: the auto-save interval in milliseconds. -/
def autoSaveIntervalMs : Nat := 5000

/-- ui.js lines 216-222 (`setupAutoSave`): the `setInterval` schedule.
Given the manager's state before each tick (`managerAt n` for the n-th
tick), the first `ticks` firings produce, for every n, a save at wall
time `5000 * (n + 1)` whose payload is the full serialized collection at
that tick — there is no dirty check and the interval is never cleared. -/
def autoSaveRun (managerAt : Nat → NoteManager) (ticks : Nat) :
    List (Nat × List SerializedNote) :=
  (List.range ticks).map
    (fun n => (autoSaveIntervalMs * (n + 1), (managerAt n).toJSON))

/-!
Concrete sample data used by witnesses and counterexamples.
-/

/-- A sample note. -/
def noteA : Note :=
  { id := "a", content := "alpha", x := 7, y := 8, timestamp := 100 }

/-- A second sample note with a later timestamp. -/
def noteB : Note :=
  { id := "b", content := "beta", x := 30, y := 40, timestamp := 300 }

/-- A sample manager holding the two sample notes in insertion order. -/
def sampleManager : NoteManager := { notes := [noteA, noteB] }

/-- A sample idle listener state for `noteA`. -/
def idleState : ListenerState :=
  { note := noteA, isDragging := false, dragOffsetX := 0, dragOffsetY := 0 }

/-- A sample dragging listener state for `noteA`. -/
def draggingState : ListenerState :=
  { note := noteA, isDragging := true, dragOffsetX := 5, dragOffsetY := 6 }

/-- A sample mousemove geometry: a 500x500 board at viewport offset
(10, 20) and a 100x50 note. -/
def sampleEnv : MoveEnv :=
  { clientX := 250, clientY := 120, boardLeft := 10, boardTop := 20,
    boardWidth := 500, boardHeight := 500, noteWidth := 100,
    noteHeight := 50 }

/-- The in-bounds predicate of the specification: the position fits the
board, `0 <= x <= boardWidth - noteWidth` and
`0 <= y <= boardHeight - noteHeight`. -/
def withinBounds (x y noteW noteH boardW boardH : Int) : Prop :=
  0 ≤ x ∧ x ≤ boardW - noteW ∧ 0 ≤ y ∧ y ≤ boardH - noteH

instance (x y noteW noteH boardW boardH : Int) :
    Decidable (withinBounds x y noteW noteH boardW boardH) := by
  unfold withinBounds
  infer_instance

/-!
Helper lemmas (shared across the claim theorems).
-/

/-- The cascade loop preserves the number of notes. -/
theorem cascadeGo_length (l : List Note) (y : Int) :
    (cascadeGo l y).length = l.length := by
  induction l generalizing y with
  | nil => rfl
  | cons n rest ih => simp [cascadeGo, ih]

/-- The i-th note produced by the cascade loop is the i-th input note
moved to `x = 550`, `y = y0 + 50 * (i + 1)`. -/
theorem cascadeGo_get (l : List Note) (y : Int) (i : Nat)
    (h : i < l.length) :
    (cascadeGo l y).get ⟨i, (cascadeGo_length l y).symm ▸ h⟩ =
      (l.get ⟨i, h⟩).updatePosition 550 (y + 50 * ((i : Int) + 1)) := by
  induction l generalizing y i with
  | nil => exact absurd h (Nat.not_lt_zero i)
  | cons n rest ih =>
    cases i with
    | zero => simp [cascadeGo]
    | succ j =>
      have hj : j < rest.length := Nat.lt_of_succ_lt_succ h
      have hrec := ih (y + 50) j hj
      simp only [cascadeGo, List.get_cons_succ] at hrec ⊢
      rw [hrec]
      congr 1
      push_cast
      ring

/-!
Claim theorems.
-/

/-- Claim C2: after a sort request (ascending or descending), the i-th
note in sorted order (i from 0) is exactly the sorted i-th note moved to
the fixed `x = 550` and `y = 50 * (i + 1)` — a deterministic cascade
whose positions do not depend on the positions the notes had before the
sort. -/
theorem sort_triggered_cascade_layout (m : NoteManager) (i : Nat)
    (hA : i < m.sortByAscending.notes.length)
    (hD : i < m.sortByDescending.notes.length) :
    (sortByAsc m).notes.get
        ⟨i, (cascadeGo_length m.sortByAscending.notes 0).symm ▸ hA⟩ =
      (m.sortByAscending.notes.get ⟨i, hA⟩).updatePosition 550
        (50 * ((i : Int) + 1)) ∧
    (sortByDesc m).notes.get
        ⟨i, (cascadeGo_length m.sortByDescending.notes 0).symm ▸ hD⟩ =
      (m.sortByDescending.notes.get ⟨i, hD⟩).updatePosition 550
        (50 * ((i : Int) + 1)) := by
  constructor
  · have := cascadeGo_get m.sortByAscending.notes 0 i hA
    simpa [sortByAsc, cascade] using this
  · have := cascadeGo_get m.sortByDescending.notes 0 i hD
    simpa [sortByDesc, cascade] using this

/-- Witness for C2 at the sample manager and index 0. -/
theorem sort_triggered_cascade_layout_witness :
    0 < sampleManager.sortByAscending.notes.length ∧
    0 < sampleManager.sortByDescending.notes.length ∧
    ((sortByAsc sampleManager).notes.get ⟨0, by decide⟩ =
        (sampleManager.sortByAscending.notes.get
          ⟨0, by decide⟩).updatePosition 550 (50 * ((0 : Int) + 1)) ∧
      (sortByDesc sampleManager).notes.get ⟨0, by decide⟩ =
        (sampleManager.sortByDescending.notes.get
          ⟨0, by decide⟩).updatePosition 550 (50 * ((0 : Int) + 1))) :=
  ⟨by decide, by decide,
    sort_triggered_cascade_layout sampleManager 0 (by decide) (by decide)⟩

/-- Claim C3: on every mousemove during a drag, the applied position is
clamped to `[0, boardWidth - noteWidth] x [0, boardHeight - noteHeight]`
(using the geometry supplied with that event), and when the board is
smaller than the note the corresponding coordinate is clamped to 0
rather than a negative bound. -/
theorem mousemove_position_clamped (s : ListenerState) (env : MoveEnv)
    (hd : s.isDragging = true) :
    (env.noteWidth ≤ env.boardWidth →
      0 ≤ (handleMousemove s env).note.x ∧
      (handleMousemove s env).note.x ≤ env.boardWidth - env.noteWidth) ∧
    (env.noteHeight ≤ env.boardHeight →
      0 ≤ (handleMousemove s env).note.y ∧
      (handleMousemove s env).note.y ≤ env.boardHeight - env.noteHeight) ∧
    (env.boardWidth < env.noteWidth → (handleMousemove s env).note.x = 0) ∧
    (env.boardHeight < env.noteHeight →
      (handleMousemove s env).note.y = 0) := by
  simp only [handleMousemove, hd, Bool.true_eq_false, if_false, dragClamp,
    Note.updatePosition]
  refine ⟨fun h => ⟨?_, ?_⟩, fun h => ⟨?_, ?_⟩, fun h => ?_, fun h => ?_⟩ <;>
    omega

/-- Witness for C3 at a concrete dragging state and geometry. -/
theorem mousemove_position_clamped_witness :
    draggingState.isDragging = true ∧
    ((sampleEnv.noteWidth ≤ sampleEnv.boardWidth →
        0 ≤ (handleMousemove draggingState sampleEnv).note.x ∧
        (handleMousemove draggingState sampleEnv).note.x ≤
          sampleEnv.boardWidth - sampleEnv.noteWidth) ∧
      (sampleEnv.noteHeight ≤ sampleEnv.boardHeight →
        0 ≤ (handleMousemove draggingState sampleEnv).note.y ∧
        (handleMousemove draggingState sampleEnv).note.y ≤
          sampleEnv.boardHeight - sampleEnv.noteHeight) ∧
      (sampleEnv.boardWidth < sampleEnv.noteWidth →
        (handleMousemove draggingState sampleEnv).note.x = 0) ∧
      (sampleEnv.boardHeight < sampleEnv.noteHeight →
        (handleMousemove draggingState sampleEnv).note.y = 0)) :=
  ⟨rfl, mousemove_position_clamped draggingState sampleEnv rfl⟩

/-- Claim C7: when the board is at least as large as the note, the
clamped result always lies within
`[0, boardWidth - noteWidth] x [0, boardHeight - noteHeight]`, the clamp
is the identity on any in-bounds candidate, and no in-bounds coordinate
is nearer to the candidate than the clamped one — together: invalid
input is projected to the nearest valid point.  In particular candidate
(520, 10) clamps to (400, 10) for a 500x500 board and a 100x50 note. -/
theorem clamp_identity_and_nearest_point (x y noteW noteH boardW boardH : Int)
    (hW : noteW ≤ boardW) (hH : noteH ≤ boardH) :
    withinBounds (dragClamp x y noteW noteH boardW boardH).1
      (dragClamp x y noteW noteH boardW boardH).2 noteW noteH boardW
      boardH ∧
    (withinBounds x y noteW noteH boardW boardH →
      dragClamp x y noteW noteH boardW boardH = (x, y)) ∧
    (∀ z, 0 ≤ z → z ≤ boardW - noteW →
      |(dragClamp x y noteW noteH boardW boardH).1 - x| ≤ |z - x|) ∧
    (∀ z, 0 ≤ z → z ≤ boardH - noteH →
      |(dragClamp x y noteW noteH boardW boardH).2 - y| ≤ |z - y|) ∧
    dragClamp 520 10 100 50 500 500 = (400, 10) := by
  refine ⟨?_, fun hin => ?_, fun z h0 h1 => ?_, fun z h0 h1 => ?_,
    by decide⟩
  · simp only [dragClamp, withinBounds]
    omega
  · obtain ⟨hx0, hx1, hy0, hy1⟩ := hin
    simp only [dragClamp, Prod.mk.injEq]
    omega
  · have ha := le_abs_self (z - x)
    have hb := neg_abs_le (z - x)
    rw [abs_le]
    simp only [dragClamp]
    omega
  · have ha := le_abs_self (z - y)
    have hb := neg_abs_le (z - y)
    rw [abs_le]
    simp only [dragClamp]
    omega

/-- Witness for C7: at the specification's example geometry, and for the
below-zero candidate (-5, 600), whose clamp must itself land in
bounds. -/
theorem clamp_identity_and_nearest_point_witness :
    (100 : Int) ≤ 500 ∧ (50 : Int) ≤ 500 ∧
    withinBounds (dragClamp (-5) 600 100 50 500 500).1
      (dragClamp (-5) 600 100 50 500 500).2 100 50 500 500 ∧
    dragClamp 520 10 100 50 500 500 = (400, 10) :=
  ⟨by decide, by decide,
    (clamp_identity_and_nearest_point (-5) 600 100 50 500 500 (by decide)
      (by decide)).1,
    (clamp_identity_and_nearest_point 520 10 100 50 500 500 (by decide)
      (by decide)).2.2.2.2⟩

/-- Claim C1 counterexample: sort-triggered re-layout does not keep
positions inside the board.  For the sample manager on a 500x500 board
with 100x50 notes, the first note after `sortByAsc` sits at x = 550,
outside `[0, boardWidth - noteWidth] = [0, 400]`. -/
theorem sort_layout_escapes_board_bounds :
    ((sortByAsc sampleManager).notes.get ⟨0, by decide⟩).x = 550 ∧
    ¬ withinBounds ((sortByAsc sampleManager).notes.get ⟨0, by decide⟩).x
        ((sortByAsc sampleManager).notes.get ⟨0, by decide⟩).y
        100 50 500 500 := by
  constructor
  · decide
  · decide

/-- Claim C1 amended: only drag-triggered position updates are clamped
into the board's bounds (whenever the board is at least as large as the
note).  Creation stores the click point relative to the board verbatim,
and sort-triggered re-layout assigns the fixed cascade position
x = 550, y = 50 * (i + 1) without consulting board bounds — so those two
operations can leave a note outside the visible bounds. -/
theorem position_setting_policy (s : ListenerState) (env : MoveEnv)
    (hd : s.isDragging = true)
    (hw : env.noteWidth ≤ env.boardWidth)
    (hh : env.noteHeight ≤ env.boardHeight)
    (clientX clientY boardLeft boardTop : Int) (id : String)
    (timestamp : Int) (m : NoteManager) (i : Nat)
    (hi : i < m.sortByAscending.notes.length) :
    withinBounds (handleMousemove s env).note.x
      (handleMousemove s env).note.y env.noteWidth env.noteHeight
      env.boardWidth env.boardHeight ∧
    ((createNewNote clientX clientY boardLeft boardTop id timestamp
        m).1.x = clientX - boardLeft ∧
      (createNewNote clientX clientY boardLeft boardTop id timestamp
        m).1.y = clientY - boardTop) ∧
    (((sortByAsc m).notes.get
        ⟨i, (cascadeGo_length m.sortByAscending.notes 0).symm ▸ hi⟩).x =
          550 ∧
      ((sortByAsc m).notes.get
        ⟨i, (cascadeGo_length m.sortByAscending.notes 0).symm ▸ hi⟩).y =
          50 * ((i : Int) + 1)) := by
  refine ⟨?_, ⟨rfl, rfl⟩, ?_⟩
  · simp only [handleMousemove, hd, Bool.true_eq_false, if_false,
      dragClamp, Note.updatePosition, withinBounds]
    omega
  · have h := cascadeGo_get m.sortByAscending.notes 0 i hi
    have hx : (sortByAsc m).notes.get
        ⟨i, (cascadeGo_length m.sortByAscending.notes 0).symm ▸ hi⟩ =
        (m.sortByAscending.notes.get ⟨i, hi⟩).updatePosition 550
          (50 * ((i : Int) + 1)) := by
      simpa [sortByAsc, cascade] using h
    rw [hx]
    exact ⟨rfl, rfl⟩

/-- Witness for the amended C1 at concrete inputs. -/
theorem position_setting_policy_witness :
    draggingState.isDragging = true ∧
    sampleEnv.noteWidth ≤ sampleEnv.boardWidth ∧
    sampleEnv.noteHeight ≤ sampleEnv.boardHeight ∧
    0 < sampleManager.sortByAscending.notes.length ∧
    (withinBounds (handleMousemove draggingState sampleEnv).note.x
        (handleMousemove draggingState sampleEnv).note.y
        sampleEnv.noteWidth sampleEnv.noteHeight sampleEnv.boardWidth
        sampleEnv.boardHeight ∧
      ((createNewNote 60 70 10 20 "c" 400 sampleManager).1.x = 60 - 10 ∧
        (createNewNote 60 70 10 20 "c" 400 sampleManager).1.y =
          70 - 20) ∧
      (((sortByAsc sampleManager).notes.get ⟨0, by decide⟩).x = 550 ∧
        ((sortByAsc sampleManager).notes.get ⟨0, by decide⟩).y =
          50 * ((0 : Int) + 1))) :=
  ⟨rfl, by decide, by decide, by decide,
    position_setting_policy draggingState sampleEnv rfl (by decide)
      (by decide) 60 70 10 20 "c" 400 sampleManager 0 (by decide)⟩

/-- One event step preserves membership of a note whose `animationend`
signal it is not. -/
theorem appStep_preserves_mem (st : AppState) (e : AppEvent) (n : Note)
    (hmem : n ∈ st.manager.notes) (hne : e ≠ .animationEnd n.id) :
    n ∈ (appStep st e).manager.notes := by
  cases e with
  | deleteRequest id => exact hmem
  | animationEnd id =>
    have hid : id ≠ n.id := by
      intro h
      exact hne (by rw [h])
    simp only [appStep, NoteManager.removeNote, List.mem_filter]
    exact ⟨hmem, by simp [bne_iff_ne]; exact fun h => hid h.symm⟩
  | autoSaveTick => exact hmem

/-- A trace free of a note's `animationend` signal preserves that note's
membership. -/
theorem runTrace_preserves_mem (tr : List AppEvent) (st : AppState)
    (n : Note) (hmem : n ∈ st.manager.notes)
    (hno : AppEvent.animationEnd n.id ∉ tr) :
    n ∈ (runTrace st tr).manager.notes := by
  induction tr generalizing st with
  | nil => exact hmem
  | cons e rest ih =>
    have hne : e ≠ .animationEnd n.id := by
      intro h
      exact hno (by rw [h]; exact List.mem_cons_self _ _)
    have hrest : AppEvent.animationEnd n.id ∉ rest := by
      intro h
      exact hno (List.mem_cons_of_mem e h)
    exact ih _ (appStep_preserves_mem st e n hmem hne) hrest

/-- Claim C4: a delete request leaves the Manager untouched, and at
every instant until the exit transition's `animationend` signal for that
note arrives, the Manager still contains the note — so any auto-save
serialization taken during the transition still includes its record. -/
theorem delete_deferred_until_animation_end (st : AppState) (n : Note)
    (tr : List AppEvent) (hmem : n ∈ st.manager.notes)
    (hno : AppEvent.animationEnd n.id ∉ tr) :
    (appStep st (.deleteRequest n.id)).manager = st.manager ∧
    n ∈ (runTrace (appStep st (.deleteRequest n.id)) tr).manager.notes ∧
    n.serialize ∈
      (runTrace (appStep st (.deleteRequest n.id)) tr).manager.toJSON := by
  have hmem2 : n ∈ (appStep st (.deleteRequest n.id)).manager.notes := hmem
  have hrun := runTrace_preserves_mem tr _ n hmem2 hno
  exact ⟨rfl, hrun, List.mem_map_of_mem Note.serialize hrun⟩

/-- Witness for C4: `noteA` survives a trace holding an auto-save tick
and another note's complete deletion, all after `noteA`'s own delete
request but before its transition completes. -/
theorem delete_deferred_until_animation_end_witness :
    noteA ∈ sampleManager.notes ∧
    AppEvent.animationEnd noteA.id ∉
      [AppEvent.autoSaveTick, AppEvent.deleteRequest "b",
        AppEvent.animationEnd "b"] ∧
    ((appStep { manager := sampleManager, fading := [] }
        (.deleteRequest noteA.id)).manager = sampleManager ∧
      noteA ∈ (runTrace (appStep { manager := sampleManager, fading := [] }
          (.deleteRequest noteA.id))
        [AppEvent.autoSaveTick, AppEvent.deleteRequest "b",
          AppEvent.animationEnd "b"]).manager.notes ∧
      noteA.serialize ∈
        (runTrace (appStep { manager := sampleManager, fading := [] }
            (.deleteRequest noteA.id))
          [AppEvent.autoSaveTick, AppEvent.deleteRequest "b",
            AppEvent.animationEnd "b"]).manager.toJSON) :=
  ⟨by decide, by decide,
    delete_deferred_until_animation_end
      { manager := sampleManager, fading := [] } noteA
      [AppEvent.autoSaveTick, AppEvent.deleteRequest "b",
        AppEvent.animationEnd "b"] (by decide) (by decide)⟩

/-- Claim C5: on a quote-fetch failure the handler leaves the note —
content included — unchanged, lets no exception escape, shows the error
indicator, and schedules the normal icon's restoration 1500 ms (1.5 s)
later. -/
theorem quote_failure_leaves_content_and_recovers (n : Note) :
    quoteButtonHandler n .failure =
      { note := n, threw := false, buttonText := quoteErrorIcon,
        pendingRevert := some (1500, quoteIcon) } := rfl

/-- Witness for C5 at the sample note (the theorem itself has no
hypothesis; this records a concrete evaluation). -/
theorem quote_failure_leaves_content_and_recovers_witness :
    quoteButtonHandler noteA .failure =
      { note := noteA, threw := false, buttonText := quoteErrorIcon,
        pendingRevert := some (1500, quoteIcon) } :=
  quote_failure_leaves_content_and_recovers noteA

/-- Claim C6: the auto-save schedule fires a save for every tick of the
session — the n-th (n from 0) at wall time 5000 * (n + 1) ms — and each
save's payload is the full serialized collection at that tick,
unconditionally (the payload expression does not consult any dirty
flag, only `toJSON` of the manager's state at the tick). -/
theorem autosave_every_interval_unconditional
    (managerAt : Nat → NoteManager) (ticks i : Nat) (hi : i < ticks) :
    (autoSaveRun managerAt ticks).length = ticks ∧
    (autoSaveRun managerAt ticks).get
        ⟨i, by simpa [autoSaveRun] using hi⟩ =
      (5000 * (i + 1), (managerAt i).toJSON) := by
  constructor
  · simp [autoSaveRun]
  · simp [autoSaveRun, autoSaveIntervalMs]

/-- Witness for C6: two ticks over an unchanging manager still produce a
save at every interval. -/
theorem autosave_every_interval_unconditional_witness :
    0 < 2 ∧
    ((autoSaveRun (fun _ => sampleManager) 2).length = 2 ∧
      (autoSaveRun (fun _ => sampleManager) 2).get ⟨0, by decide⟩ =
        (5000 * (0 + 1), sampleManager.toJSON)) :=
  ⟨by decide,
    autosave_every_interval_unconditional (fun _ => sampleManager) 2 0
      (by decide)⟩

/-- A mousemove leaves a non-dragging listener's state untouched. -/
theorem handleMousemove_not_dragging (s : ListenerState) (env : MoveEnv)
    (h : s.isDragging = false) : handleMousemove s env = s := by
  simp [handleMousemove, h]

/-- A mousemove never changes the `isDragging` flag or the recorded drag
offset — only the note's position. -/
theorem handleMousemove_flags (s : ListenerState) (env : MoveEnv) :
    (handleMousemove s env).isDragging = s.isDragging ∧
    (handleMousemove s env).dragOffsetX = s.dragOffsetX ∧
    (handleMousemove s env).dragOffsetY = s.dragOffsetY := by
  unfold handleMousemove
  split <;> simp

/-- A whole sequence of mousemoves never changes the `isDragging` flag
or the recorded drag offset. -/
theorem processMoves_flags (envs : List MoveEnv) (s : ListenerState) :
    (processMoves s envs).isDragging = s.isDragging ∧
    (processMoves s envs).dragOffsetX = s.dragOffsetX ∧
    (processMoves s envs).dragOffsetY = s.dragOffsetY := by
  induction envs generalizing s with
  | nil => exact ⟨rfl, rfl, rfl⟩
  | cons e rest ih =>
    have h1 := handleMousemove_flags s e
    have h2 := ih (handleMousemove s e)
    exact ⟨h2.1.trans h1.1, h2.2.1.trans h1.2.1, h2.2.2.trans h1.2.2⟩

/-- A mousedown away from the controls and content region sets
`isDragging` and records the offset verbatim. -/
theorem handleMousedown_noteBody (s : ListenerState)
    (clientX clientY noteLeft noteTop : Int) :
    handleMousedown s .noteBody clientX clientY noteLeft noteTop =
      { s with isDragging := true, dragOffsetX := clientX - noteLeft,
               dragOffsetY := clientY - noteTop } := by
  simp [handleMousedown]

/-- The dispatch loop preserves the number of listeners. -/
theorem docMousemoveGo_length
    (clientX clientY boardLeft boardTop boardW boardH : Int)
    (dims : Nat → Int × Int) (i : Nat) (l : List ListenerState) :
    (docMousemoveGo clientX clientY boardLeft boardTop boardW boardH dims
      i l).length = l.length := by
  induction l generalizing i with
  | nil => rfl
  | cons s rest ih => simp [docMousemoveGo, ih]

/-- The dispatch loop sends to the i-th listener exactly one mousemove
with the shared geometry and that listener's own note size. -/
theorem docMousemoveGo_get
    (clientX clientY boardLeft boardTop boardW boardH : Int)
    (dims : Nat → Int × Int) (i0 : Nat) (l : List ListenerState)
    (i : Nat) (h : i < l.length) :
    (docMousemoveGo clientX clientY boardLeft boardTop boardW boardH dims
        i0 l).get
      ⟨i, (docMousemoveGo_length clientX clientY boardLeft boardTop boardW
        boardH dims i0 l).symm ▸ h⟩ =
      handleMousemove (l.get ⟨i, h⟩)
        (sharedMoveEnv clientX clientY boardLeft boardTop boardW boardH
          dims (i0 + i)) := by
  induction l generalizing i0 i with
  | nil => exact absurd h (Nat.not_lt_zero i)
  | cons s rest ih =>
    cases i with
    | zero => simp [docMousemoveGo]
    | succ j =>
      have hj : j < rest.length := Nat.lt_of_succ_lt_succ h
      have hrec := ih (i0 + 1) j hj
      simp only [docMousemoveGo, List.get_cons_succ] at hrec ⊢
      rw [hrec]
      congr 2
      omega

/-- Claim C8: a mousedown targeting the delete control, the quote
control or the editable content region does not enter Dragging (the
listener state is unchanged), so from Idle a subsequent mousemove leaves
the whole state — position included — unchanged; a mousedown anywhere
else on the note does enter Dragging. -/
theorem mousedown_target_gating (s : ListenerState) (target : ClickTarget)
    (clientX clientY noteLeft noteTop : Int) :
    ((target = .deleteBtn ∨ target = .quoteBtn ∨ target = .contentEl) →
      handleMousedown s target clientX clientY noteLeft noteTop = s ∧
      (s.isDragging = false → ∀ env,
        handleMousemove
            (handleMousedown s target clientX clientY noteLeft noteTop)
            env =
          handleMousedown s target clientX clientY noteLeft noteTop)) ∧
    (target = .noteBody →
      (handleMousedown s target clientX clientY noteLeft
        noteTop).isDragging = true) := by
  constructor
  · intro ht
    have he : handleMousedown s target clientX clientY noteLeft noteTop =
        s := by
      simp [handleMousedown, ht]
    refine ⟨he, fun hidle env => ?_⟩
    rw [he]
    exact handleMousemove_not_dragging s env hidle
  · intro ht
    subst ht
    simp [handleMousedown]

/-- Witness for C8: from Idle, a mousedown on the delete button followed
by a mousemove changes nothing. -/
theorem mousedown_target_gating_witness :
    (ClickTarget.deleteBtn = ClickTarget.deleteBtn ∨
      ClickTarget.deleteBtn = ClickTarget.quoteBtn ∨
      ClickTarget.deleteBtn = ClickTarget.contentEl) ∧
    idleState.isDragging = false ∧
    handleMousemove (handleMousedown idleState .deleteBtn 1 2 3 4)
        sampleEnv =
      handleMousedown idleState .deleteBtn 1 2 3 4 :=
  ⟨Or.inl rfl, rfl,
    ((mousedown_target_gating idleState .deleteBtn 1 2 3 4).1
      (Or.inl rfl)).2 rfl sampleEnv⟩

/-- Claim C9: the drag offset recorded at a drag-start mousedown
(pointer minus the note's top-left) is untouched by every later
mousemove of the drag — whatever clamping those moves performed — and
every further mousemove computes its candidate position as the current
pointer, board-relative, minus that same recorded offset. -/
theorem drag_offset_constant_during_drag (s : ListenerState)
    (clientX clientY noteLeft noteTop : Int) (envs : List MoveEnv)
    (env : MoveEnv) :
    (processMoves
        (handleMousedown s .noteBody clientX clientY noteLeft noteTop)
        envs).dragOffsetX = clientX - noteLeft ∧
    (processMoves
        (handleMousedown s .noteBody clientX clientY noteLeft noteTop)
        envs).dragOffsetY = clientY - noteTop ∧
    (processMoves
        (handleMousedown s .noteBody clientX clientY noteLeft noteTop)
        envs).isDragging = true ∧
    (handleMousemove
        (processMoves
          (handleMousedown s .noteBody clientX clientY noteLeft noteTop)
          envs) env).note =
      (processMoves
          (handleMousedown s .noteBody clientX clientY noteLeft noteTop)
          envs).note.updatePosition
        (dragClamp (env.clientX - env.boardLeft - (clientX - noteLeft))
          (env.clientY - env.boardTop - (clientY - noteTop))
          env.noteWidth env.noteHeight env.boardWidth env.boardHeight).1
        (dragClamp (env.clientX - env.boardLeft - (clientX - noteLeft))
          (env.clientY - env.boardTop - (clientY - noteTop))
          env.noteWidth env.noteHeight env.boardWidth env.boardHeight).2 := by
  have hflags := processMoves_flags envs
    (handleMousedown s .noteBody clientX clientY noteLeft noteTop)
  obtain ⟨hf, hox, hoy⟩ := hflags
  rw [handleMousedown_noteBody] at hf hox hoy
  have hx : (processMoves
      (handleMousedown s .noteBody clientX clientY noteLeft noteTop)
      envs).dragOffsetX = clientX - noteLeft := by
    rw [handleMousedown_noteBody]
    exact hox
  have hy : (processMoves
      (handleMousedown s .noteBody clientX clientY noteLeft noteTop)
      envs).dragOffsetY = clientY - noteTop := by
    rw [handleMousedown_noteBody]
    exact hoy
  have hd : (processMoves
      (handleMousedown s .noteBody clientX clientY noteLeft noteTop)
      envs).isDragging = true := by
    rw [handleMousedown_noteBody]
    exact hf
  refine ⟨hx, hy, hd, ?_⟩
  simp only [handleMousemove, hd, Bool.true_eq_false, if_false, hx, hy]

/-- Witness for C9 after one intermediate (clamping) move. -/
theorem drag_offset_constant_during_drag_witness :
    (processMoves (handleMousedown idleState .noteBody 100 90 60 70)
        [sampleEnv]).dragOffsetX = 100 - 60 ∧
    (processMoves (handleMousedown idleState .noteBody 100 90 60 70)
        [sampleEnv]).dragOffsetY = 90 - 70 ∧
    (processMoves (handleMousedown idleState .noteBody 100 90 60 70)
        [sampleEnv]).isDragging = true ∧
    (handleMousemove
        (processMoves (handleMousedown idleState .noteBody 100 90 60 70)
          [sampleEnv]) sampleEnv).note =
      (processMoves (handleMousedown idleState .noteBody 100 90 60 70)
          [sampleEnv]).note.updatePosition
        (dragClamp (sampleEnv.clientX - sampleEnv.boardLeft - (100 - 60))
          (sampleEnv.clientY - sampleEnv.boardTop - (90 - 70))
          sampleEnv.noteWidth sampleEnv.noteHeight sampleEnv.boardWidth
          sampleEnv.boardHeight).1
        (dragClamp (sampleEnv.clientX - sampleEnv.boardLeft - (100 - 60))
          (sampleEnv.clientY - sampleEnv.boardTop - (90 - 70))
          sampleEnv.noteWidth sampleEnv.noteHeight sampleEnv.boardWidth
          sampleEnv.boardHeight).2 :=
  drag_offset_constant_during_drag idleState 100 90 60 70 [sampleEnv]
    sampleEnv

/-- Claim C10: pointer movement only ever changes the note currently in
Dragging.  A non-dragging listener is left entirely unchanged (position,
content and identity included) by a mousemove; after a mouseup the
listener is no longer dragging and further mousemoves change nothing;
and in a board of several notes, a document-level mousemove leaves every
non-dragging note's state exactly as it was. -/
theorem mousemove_only_affects_dragged_note (s : ListenerState)
    (env envAfter : MoveEnv)
    (clientX clientY boardLeft boardTop boardW boardH : Int)
    (dims : Nat → Int × Int) (states : List ListenerState) (i : Nat)
    (hi : i < states.length)
    (hidle : (states.get ⟨i, hi⟩).isDragging = false) :
    (s.isDragging = false → handleMousemove s env = s) ∧
    (handleMouseup s).isDragging = false ∧
    handleMousemove (handleMouseup s) envAfter = handleMouseup s ∧
    (docMousemove clientX clientY boardLeft boardTop boardW boardH dims
        states).get
      ⟨i, (docMousemoveGo_length clientX clientY boardLeft boardTop boardW
        boardH dims 0 states).symm ▸ hi⟩ = states.get ⟨i, hi⟩ := by
  have hup : (handleMouseup s).isDragging = false := by
    unfold handleMouseup
    split <;> simp_all
  refine ⟨fun h => handleMousemove_not_dragging s env h, hup,
    handleMousemove_not_dragging _ envAfter hup, ?_⟩
  have hg := docMousemoveGo_get clientX clientY boardLeft boardTop boardW
    boardH dims 0 states i hi
  show (docMousemoveGo clientX clientY boardLeft boardTop boardW boardH
      dims 0 states).get _ = states.get ⟨i, hi⟩
  rw [hg, Nat.zero_add]
  exact handleMousemove_not_dragging _ _ hidle

/-- Witness for C10: with one dragging and one idle note, a
document-level mousemove leaves the idle note untouched. -/
theorem mousemove_only_affects_dragged_note_witness :
    1 < ([draggingState, idleState] : List ListenerState).length ∧
    (([draggingState, idleState] :
        List ListenerState).get ⟨1, by decide⟩).isDragging = false ∧
    (docMousemove 250 120 10 20 500 500 (fun _ => (100, 50))
        [draggingState, idleState]).get ⟨1, by decide⟩ =
      ([draggingState, idleState] : List ListenerState).get
        ⟨1, by decide⟩ :=
  ⟨by decide, by decide,
    (mousemove_only_affects_dragged_note idleState sampleEnv sampleEnv
      250 120 10 20 500 500 (fun _ => (100, 50))
      [draggingState, idleState] 1 (by decide) (by decide)).2.2.2⟩

end StickyNotes
